import Mathlib

/-!
Verification of the Nepse-Scrapper scrape-fetch-normalize-reconcile pipeline.

The Python code is shallowly embedded: dict-shaped raw records become
structures of optional fields, Python floats become exact rationals,
database tables become lists of rows, and the Django ORM calls
(get_or_create, update_or_create, filter/exists, order_by) become
executable list functions.  Strings are modelled over their character
lists; numeric-literal parsing covers plain decimal literals with an
optional sign and one decimal point (the grammar exercised by the
scrapers), and Python's float rounding ties are resolved half-to-even
as CPython's round does.
-/

namespace Nepse

/-- Embedding of the Python values that flow through the scrapers'
dict fields: None, a float (as an exact rational), or a string.
An absent dict key behaves as None in every probe the code performs. -/
inductive PVal where
  | null : PVal
  | num : ℚ → PVal
  | str : String → PVal
deriving DecidableEq

/-- Python truthiness for the embedded values: None and 0.0 and the
empty string are falsy. -/
def pvTruthy : PVal → Bool
  | .null => false
  | .num q => q ≠ 0
  | .str s => s ≠ ""

/-- Python `a or b` on embedded values. -/
def pvOr (a b : PVal) : PVal := if pvTruthy a then a else b

/-- Whitespace characters stripped by Python's str.strip. -/
def isWsChar (c : Char) : Bool :=
  c = ' ' ∨ c = '\t' ∨ c = '\n' ∨ c = '\r'

/-- str.strip on a character list. -/
def stripChars (l : List Char) : List Char :=
  ((l.dropWhile isWsChar).reverse.dropWhile isWsChar).reverse

/-- ASCII uppercasing of one character (str.upper on the inputs seen
by the scrapers). -/
def upChar (c : Char) : Char :=
  if 'a' ≤ c ∧ c ≤ 'z' then Char.ofNat (c.toNat - 32) else c

/-- `s.strip().upper()`, the symbol normalisation used throughout. -/
def normalizeSym (s : String) : String :=
  ⟨(stripChars s.data).map upChar⟩

/-- str.strip as a String function. -/
def stripStr (s : String) : String := ⟨stripChars s.data⟩

/-- Remove every occurrence of one character (str.replace(c, '')). -/
def removeChar (c : Char) (l : List Char) : List Char :=
  l.filter (fun x => x ≠ c)

/-- Fuel-driven removal of a substring, scanning left to right over
non-overlapping occurrences, as str.replace(pat, '') does. -/
def removeSubAux (pat : List Char) : ℕ → List Char → List Char
  | 0, l => l
  | _ + 1, [] => []
  | fuel + 1, c :: cs =>
    if pat.isPrefixOf (c :: cs) then
      removeSubAux pat fuel ((c :: cs).drop pat.length)
    else
      c :: removeSubAux pat fuel cs

/-- str.replace(pat, '') over the whole list. -/
def removeSub (pat l : List Char) : List Char :=
  removeSubAux pat (l.length + 1) l

/-- Numeric value of a decimal digit character. -/
def digVal (c : Char) : ℕ := c.toNat - 48

/-- Value of a digit string read most-significant first. -/
def natFromDigits (l : List Char) : ℕ :=
  l.foldl (fun a c => 10 * a + digVal c) 0

/-- Parse an unsigned decimal literal (digits with at most one point,
at least one digit overall) to an exact rational; `none` mirrors the
ValueError float() raises on anything else. -/
def pyFloatAux (l : List Char) : Option ℚ :=
  let ip := l.takeWhile Char.isDigit
  match l.drop ip.length with
  | [] => if ip = [] then none else some (natFromDigits ip)
  | '.' :: fp =>
    if fp.all Char.isDigit ∧ (ip ≠ [] ∨ fp ≠ []) then
      some ((natFromDigits (ip ++ fp) : ℚ) / 10 ^ fp.length)
    else none
  | _ => none

/-- Python float(str): strip whitespace, optional sign, decimal
literal; `none` on anything unparseable. -/
def pyFloatChars (l : List Char) : Option ℚ :=
  match stripChars l with
  | '-' :: rest => (pyFloatAux rest).map Neg.neg
  | '+' :: rest => pyFloatAux rest
  | t => pyFloatAux t

/-- Python int(str): strip whitespace, optional sign, nonempty digit
run; `none` mirrors the ValueError on anything else. -/
def pyIntChars (l : List Char) : Option ℤ :=
  let core : List Char → Option ℤ := fun ds =>
    if ds ≠ [] ∧ ds.all Char.isDigit then some (natFromDigits ds : ℤ) else none
  match stripChars l with
  | '-' :: rest => (core rest).map Neg.neg
  | '+' :: rest => core rest
  | t => core t

/-- int() on an optional query-string parameter. -/
def pyIntOpt (s : String) : Option ℤ := pyIntChars s.data

/-- Round-half-to-even to an integer, as CPython's round resolves
ties. -/
def roundHalfEven (x : ℚ) : ℤ :=
  let f := Int.floor x
  let r := x - f
  if r < 1 / 2 then f
  else if 1 / 2 < r then f + 1
  else if Even f then f else f + 1

/-- Python round(x, 2). -/
def round2 (x : ℚ) : ℚ := (roundHalfEven (x * 100) : ℚ) / 100

/-- UnofficialNepseClientFinal._parse_number: on a string, drop commas,
strip, drop percent signs, then float(); None on failure, never
raising. -/
def parseNumberUnofficial : PVal → Option ℚ
  | .null => none
  | .num q => some q
  | .str s => pyFloatChars (removeChar '%' (stripChars (removeChar ',' s.data)))

/-- NepseDataProcessor24x7._parse_decimal: on a string, drop commas and
strip, then float(); None on failure. -/
def parseDecimal : PVal → Option ℚ
  | .null => none
  | .num q => some q
  | .str s => pyFloatChars (stripChars (removeChar ',' s.data))

/-- DirectNepseScraper._parse_number: sentinel strings map to None;
otherwise commas, spaces, percent signs and the currency marker Rs.
are removed, a parenthesised value is negated, then float(). -/
def parseNumberDirect : PVal → Option ℚ
  | .null => none
  | .num q => some q
  | .str s =>
    let t := stripChars s.data
    if t = [] ∨ t = ['-'] ∨ t = "N/A".data ∨ t = "NA".data ∨
        t = "null".data ∨ t = "None".data then none
    else
      let u := removeSub "Rs.".data (removeChar '%' (removeChar ' ' (removeChar ',' t)))
      let u' := if u.head? = some '(' ∧ u.getLast? = some ')' then
          '-' :: (u.drop 1).dropLast
        else u
      pyFloatChars u'

/-- A heterogeneous raw scrape record: the union of every candidate
dict key the two normalizers probe.  A missing key is the default
(empty string / none / PVal.null), matching dict.get on absence. -/
structure Raw where
  symbol : String := ""
  companyCode : String := ""
  code : String := ""
  securityId : String := ""
  securityName : Option String := none
  companyName : Option String := none
  name : Option String := none
  company_name : Option String := none
  ltp : PVal := .null
  lastTradedPrice : PVal := .null
  closePrice : PVal := .null
  closingPrice : PVal := .null
  price : PVal := .null
  lastPrice : PVal := .null
  percentageChange : PVal := .null
  changePercent : PVal := .null
  percentChange : PVal := .null
  changePercentage : PVal := .null
  change : PVal := .null
  previousClose : PVal := .null
  prevClose : PVal := .null
  yesterdayClose : PVal := .null
  previousClosingPrice : PVal := .null
  pointChange : PVal := .null
  difference : PVal := .null
  changeAmount : PVal := .null
deriving DecidableEq

/-- The canonical observation record both normalizers emit (the
stock_item dict with keys symbol, securityName, ltp, percentageChange,
previousClose, pointChange, is_gainer). -/
structure ORec where
  symbol : String
  securityName : String
  ltp : Option ℚ
  percentageChange : Option ℚ
  previousClose : Option ℚ
  pointChange : Option ℚ
  isGainer : Bool
deriving DecidableEq

/-- Truthiness of an optional string (None and the empty string are
falsy). -/
def osTruthy : Option String → Bool
  | none => false
  | some s => s ≠ ""

/-- The `a or b or c or symbol` name chain of the unofficial client. -/
def nameUnofficial (i : Raw) (sym : String) : String :=
  match [i.securityName, i.companyName, i.name].find? osTruthy with
  | some (some s) => s
  | _ => sym

/-- UnofficialNepseClientFinal._format_stock_data: drop the record only
when the normalised symbol is empty; probe each field group with
Python `or` chains and parse; no field is ever derived. -/
def formatStockDataUnofficial (i : Raw) (isGainer : Bool) : Option ORec :=
  let sym := normalizeSym i.symbol
  if sym = "" then none
  else
    some
      { symbol := sym
        securityName := nameUnofficial i sym
        ltp := parseNumberUnofficial
          (pvOr i.ltp (pvOr i.lastTradedPrice (pvOr i.closePrice (pvOr i.closingPrice i.price))))
        percentageChange := parseNumberUnofficial
          (pvOr i.percentageChange (pvOr i.changePercent (pvOr i.percentChange i.change)))
        previousClose := parseNumberUnofficial
          (pvOr i.previousClose (pvOr i.prevClose i.yesterdayClose))
        pointChange := parseNumberUnofficial
          (pvOr i.pointChange (pvOr i.difference i.changeAmount))
        isGainer := isGainer }

/-- First truthy entry of a list of plain strings. -/
def firstTruthyStr (l : List String) : Option String :=
  l.find? (fun s => s ≠ "")

/-- The sentinel test of DirectNepseScraper's field probes:
`item[field] not in [None, '', '-']` fails on these values. -/
def sentinelPV (v : PVal) : Bool :=
  v = .null ∨ v = .str "" ∨ v = .str "-"

/-- DirectNepseScraper's candidate-field probe: the first non-sentinel
candidate is parsed and assigned to the output key; `none` means the
key is never set. -/
def probeDirect (l : List PVal) : Option (Option ℚ) :=
  (l.find? (fun v => ¬ sentinelPV v)).map parseNumberDirect

/-- DirectNepseScraper._format_stock_data.  The symbol is the first
truthy candidate, stripped and uppercased, and the record is dropped
when no candidate is truthy or the chosen one strips to empty
(`if not symbol: return None`).  Slots of type Option (Option ℚ)
distinguish an unset dict key (outer none) from a key set to a failed
parse (some none); arithmetic on a None operand raises a TypeError
which the surrounding except turns into a dropped record, modelled by
the whole function returning none. -/
def formatStockDataDirect (i : Raw) : Option ORec :=
  match firstTruthyStr [i.symbol, i.companyCode, i.code, i.securityId] with
  | none => none
  | some s0 =>
    let sym := normalizeSym s0
    if sym = "" then none
    else
    let nm := match [i.companyName, i.securityName, i.name, i.company_name].find? osTruthy with
      | some (some s) => stripStr s
      | _ => sym
    match probeDirect [i.lastTradedPrice, i.ltp, i.closePrice, i.closingPrice, i.price, i.lastPrice] with
    | none => none
    | some ltpV =>
      let pctS := probeDirect [i.percentageChange, i.percentChange, i.changePercent, i.changePercentage]
      let prevS := probeDirect [i.previousClose, i.prevClose, i.yesterdayClose, i.previousClosingPrice]
      let pointS := probeDirect [i.pointChange, i.difference, i.change, i.changeAmount]
      let pctStep : Option (Option (Option ℚ)) :=
        match pctS with
        | some v => some (some v)
        | none =>
          match prevS with
          | some (some q) =>
            if 0 < q then
              match ltpV with
              | some l => some (some (some (round2 ((l - q) / q * 100))))
              | none => none
            else some none
          | _ => some none
      match pctStep with
      | none => none
      | some pctS' =>
        let pointStep : Option (Option (Option ℚ)) :=
          match pointS with
          | some v => some (some v)
          | none =>
            match prevS with
            | some (some q) =>
              if q ≠ 0 then
                match ltpV with
                | some l => some (some (some (round2 (l - q))))
                | none => none
              else some none
            | _ => some none
        match pointStep with
        | none => none
        | some pointS' =>
          match pctS' with
          | some none => none
          | _ =>
            some
              { symbol := sym
                securityName := nm
                ltp := ltpV
                percentageChange := pctS'.join
                previousClose := prevS.join
                pointChange := pointS'.join
                isGainer := match pctS' with
                  | some (some q) => decide (0 < q)
                  | _ => false }

/-- Trading weekdays in Python's weekday numbering: Sunday (6) through
Thursday (3). -/
def tradingWeekday (w : ℕ) : Bool :=
  w = 6 ∨ w = 0 ∨ w = 1 ∨ w = 2 ∨ w = 3

/-- NepseDataProcessor24x7._determine_market_session: purely a function
of the weekday and the hour. -/
def determineMarketSession (w hour : ℕ) : String :=
  if tradingWeekday w then
    if 11 ≤ hour ∧ hour < 15 then "regular"
    else if 15 ≤ hour then "after_hours"
    else "pre_market"
  else "weekend"

/-- Session classification of a full wall-clock timestamp; the code
reads the minute but never uses it, and never reads the second. -/
def classifySession (w hour : ℕ) (_minute _second : ℕ) : String :=
  determineMarketSession w hour

/-- The stock_item dict consumed by
NepseDataProcessor24x7._save_stock_record. -/
structure SaveItem where
  symbol : String := ""
  securityName : Option String := none
  cp : PVal := .null
  ltp : PVal := .null
  previousClose : PVal := .null
  pointChange : PVal := .null
  percentageChange : PVal := .null
deriving DecidableEq

/-- A scrapers.models.Company row; the symbol is the natural key. -/
structure Company where
  symbol : String
  name : String
  isActive : Bool
deriving DecidableEq

/-- A scrapers.models.StockData row.  Dates and times are abstract
discrete stamps; company identity is carried by the unique symbol. -/
structure StockRow where
  symbol : String
  closePrice : Option ℚ
  lastTradedPrice : Option ℚ
  previousClose : Option ℚ
  difference : Option ℚ
  percentageChange : Option ℚ
  scrapeDate : ℕ
  scrapeTime : ℕ
  dataSource : String
  isClosingData : Bool
deriving DecidableEq

/-- The persistent store of the scrapers app. -/
structure PState where
  companies : List Company
  rows : List StockRow
deriving DecidableEq

/-- The company-name refresh of _save_stock_record:
`if new_name and company.name != new_name`, update in place. -/
def updName (it : SaveItem) (c : Company) : Company :=
  match it.securityName with
  | some n => if n ≠ "" ∧ c.name ≠ n then { c with name := n } else c
  | none => c

/-- Company.objects.get_or_create(symbol=sym, defaults=...), followed
by the name refresh on the resolved row. -/
def upsertCompany (it : SaveItem) (sym : String) : List Company → List Company
  | [] => [⟨sym, it.securityName.getD sym, true⟩]
  | c :: cs =>
    if c.symbol = sym then updName it c :: cs
    else c :: upsertCompany it sym cs

/-- The duplicate filter of _save_stock_record: an existing row with the
same company, scrape date, scrape time and data source. -/
def rowMatches (r : StockRow) (sym : String) (d t : ℕ) (src : String) : Bool :=
  r.symbol = sym ∧ r.scrapeDate = d ∧ r.scrapeTime = t ∧ r.dataSource = src

/-- The StockData row _save_stock_record builds from one stock_item. -/
def mkRow (it : SaveItem) (sym : String) (d t : ℕ) (src : String) : StockRow :=
  { symbol := sym
    closePrice := parseDecimal it.cp
    lastTradedPrice := parseDecimal it.ltp
    previousClose := parseDecimal it.previousClose
    difference := parseDecimal it.pointChange
    percentageChange := parseDecimal it.percentageChange
    scrapeDate := d
    scrapeTime := t
    dataSource := src
    isClosingData := src = "closing" ∨ src = "historical" }

/-- NepseDataProcessor24x7._save_stock_record: skip on empty symbol,
resolve-or-create the company, skip when a row with the same
(company, date, time, source) key exists, otherwise insert. -/
def saveStockRecord (it : SaveItem) (src : String) (t d : ℕ) (st : PState) : PState × Bool :=
  let sym := normalizeSym it.symbol
  if sym = "" then (st, false)
  else
    let cs := upsertCompany it sym st.companies
    if st.rows.any (fun r => rowMatches r sym d t src) then (⟨cs, st.rows⟩, false)
    else (⟨cs, st.rows ++ [mkRow it sym d t src]⟩, true)

/-- The per-batch reconciliation loop of execute_24x7_scraping: save
each record for the bucket, counting the successful inserts; one
record's failure never aborts the rest. -/
def reconcile (src : String) (t d : ℕ) : List SaveItem → PState → PState × ℕ
  | [], st => (st, 0)
  | it :: rest, st =>
    match saveStockRecord it src t d st with
    | (st', b) =>
      match reconcile src t d rest st' with
      | (st'', n) => (st'', (if b then 1 else 0) + n)

/-- Sort key of the ranking queries: a null percentage change reads as
zero (such rows are filtered out before sorting). -/
def pctKey (r : StockRow) : ℚ := r.percentageChange.getD 0

/-- percentage_change__gt=0. -/
def pctPos (r : StockRow) : Bool :=
  match r.percentageChange with
  | some q => 0 < q
  | none => false

/-- percentage_change__lt=0. -/
def pctNeg (r : StockRow) : Bool :=
  match r.percentageChange with
  | some q => q < 0
  | none => false

/-- order_by('-percentage_change'): non-increasing percentage change. -/
def gOrd (a b : StockRow) : Prop := pctKey b ≤ pctKey a

/-- order_by('percentage_change'): non-decreasing percentage change. -/
def lOrd (a b : StockRow) : Prop := pctKey a ≤ pctKey b

instance : DecidableRel gOrd := fun a b =>
  inferInstanceAs (Decidable (pctKey b ≤ pctKey a))

instance : DecidableRel lOrd := fun a b =>
  inferInstanceAs (Decidable (pctKey a ≤ pctKey b))

instance : IsTotal StockRow gOrd := ⟨fun a b => le_total (pctKey b) (pctKey a)⟩

instance : IsTrans StockRow gOrd := ⟨fun _ _ _ h₁ h₂ => le_trans h₂ h₁⟩

instance : IsTotal StockRow lOrd := ⟨fun a b => le_total (pctKey a) (pctKey b)⟩

instance : IsTrans StockRow lOrd := ⟨fun _ _ _ h₁ h₂ => le_trans h₁ h₂⟩

/-- The rows of one snapshot: filter(scrape_date=d, scrape_time=t). -/
def snapshotRows (store : List StockRow) (d t : ℕ) : List StockRow :=
  store.filter (fun r => decide (r.scrapeDate = d ∧ r.scrapeTime = t))

/-- aggregate(latest_time=Max('scrape_time')) over today's rows. -/
def latestScrapeTime (store : List StockRow) (d : ℕ) : Option ℕ :=
  ((store.filter (fun r => decide (r.scrapeDate = d))).map StockRow.scrapeTime).max?

/-- aggregate(latest_date=Max('scrape_date')) over the whole table. -/
def latestScrapeDate (store : List StockRow) : Option ℕ :=
  (store.map StockRow.scrapeDate).max?

/-- TopGainersView's ranked list for one snapshot: strictly positive
changes, sorted descending, truncated to 10. -/
def topGainersFor (rows : List StockRow) : List StockRow :=
  (List.insertionSort gOrd (rows.filter pctPos)).take 10

/-- TopLosersView's ranked list for one snapshot: strictly negative
changes, sorted ascending, truncated to 10. -/
def topLosersFor (rows : List StockRow) : List StockRow :=
  (List.insertionSort lOrd (rows.filter pctNeg)).take 10

/-- The response shapes the read endpoints can produce, keyed by HTTP
status class: a 200 success carrying a row count and message, a
404-style structured error, a 400 bad request, or a 500 raised out of
an uncaught ORM error. -/
inductive HResp where
  | ok : ℕ → String → HResp
  | notFound : String → HResp
  | badRequest : String → HResp
  | serverError : HResp
deriving DecidableEq

/-- Whether a response is a 200 success. -/
def HResp.isOk : HResp → Bool
  | .ok _ _ => true
  | _ => false

/-- scrapers TopGainersView.get: no scrape time for today means a
success with empty data and a message, never an error status. -/
def scrapersTopGainersResp (store : List StockRow) (today : ℕ) : HResp :=
  match latestScrapeTime store today with
  | none => .ok 0 "No data available for today"
  | some t => .ok (topGainersFor (snapshotRows store today t)).length ""

/-- scrapers TopLosersView.get. -/
def scrapersTopLosersResp (store : List StockRow) (today : ℕ) : HResp :=
  match latestScrapeTime store today with
  | none => .ok 0 "No data available for today"
  | some t => .ok (topLosersFor (snapshotRows store today t)).length ""

/-- scrapers MarketStatusView.get over the MarketStatus table (a list
of (date, is_market_open) rows): the DoesNotExist branch is still a
200 with a message. -/
def scrapersMarketStatusResp (ms : List (ℕ × Bool)) (today : ℕ) : HResp :=
  match ms.find? (fun p => decide (p.1 = today)) with
  | some _ => .ok 1 ""
  | none => .ok 0 "No market data available for today"

/-- scrapers LatestStocksView.get: today's snapshot, else a fallback to
the most recent prior date marked by a message, else success with
empty data. -/
def scrapersLatestResp (store : List StockRow) (today : ℕ) : HResp :=
  match latestScrapeTime store today with
  | some t => .ok (snapshotRows store today t).length ""
  | none =>
    match latestScrapeDate store with
    | some d' =>
      match latestScrapeTime store d' with
      | some t' => .ok (snapshotRows store d' t').length "Showing latest available data"
      | none => .ok 0 "No stock data available"
    | none => .ok 0 "No stock data available"

/-- A nepse_data.models.DailyStockData row; (symbol, date) is the
unique key. -/
structure DailyRow where
  symbol : String
  date : ℕ
  openPrice : Option ℚ
  highPrice : Option ℚ
  lowPrice : Option ℚ
  closePrice : Option ℚ
  volume : Option ℤ
  change : Option ℚ
  changePercent : Option ℚ
deriving DecidableEq

/-- DailyStockData.objects.latest('date'). -/
def latestDailyDate (rows : List DailyRow) : Option ℕ :=
  (rows.map DailyRow.date).max?

/-- nepse_data top_views limit handling:
min(int(request.GET.get('limit', 10)), 20), with ValueError defaulting
to 10.  There is no lower clamp. -/
def effectiveLimit (p : Option String) : ℤ :=
  match p with
  | none => min (10 : ℤ) 20
  | some s =>
    match pyIntOpt s with
    | some n => min n 20
    | none => 10

/-- A Django queryset slice [:n]: a negative bound raises (Django
forbids negative indexing), modelled as none. -/
def sliceTop {α : Type} (l : List α) (n : ℤ) : Option (List α) :=
  if n < 0 then none else some (l.take n.toNat)

/-- change_percent__gt=0 on a daily row. -/
def dPctPos (r : DailyRow) : Bool :=
  match r.changePercent with
  | some q => 0 < q
  | none => false

/-- change_percent__lt=0 on a daily row. -/
def dPctNeg (r : DailyRow) : Bool :=
  match r.changePercent with
  | some q => q < 0
  | none => false

/-- order_by('-change_percent') key. -/
def dKey (r : DailyRow) : ℚ := r.changePercent.getD 0

/-- Non-increasing change_percent. -/
def dgOrd (a b : DailyRow) : Prop := dKey b ≤ dKey a

/-- Non-decreasing change_percent. -/
def dlOrd (a b : DailyRow) : Prop := dKey a ≤ dKey b

instance : DecidableRel dgOrd := fun a b =>
  inferInstanceAs (Decidable (dKey b ≤ dKey a))

instance : DecidableRel dlOrd := fun a b =>
  inferInstanceAs (Decidable (dKey a ≤ dKey b))

instance : IsTotal DailyRow dgOrd := ⟨fun a b => le_total (dKey b) (dKey a)⟩

instance : IsTrans DailyRow dgOrd := ⟨fun _ _ _ h₁ h₂ => le_trans h₂ h₁⟩

instance : IsTotal DailyRow dlOrd := ⟨fun a b => le_total (dKey a) (dKey b)⟩

instance : IsTrans DailyRow dlOrd := ⟨fun _ _ _ h₁ h₂ => le_trans h₁ h₂⟩

/-- nepse_data top_views TopGainersView.get: 404 when the table is
empty, 404 when the latest date has no non-null change rows, otherwise
the clamped slice of the positive-change ranking. -/
def nepseTopGainersResp (rows : List DailyRow) (limitParam : Option String) : HResp :=
  match latestDailyDate rows with
  | none => .notFound "No stock data available"
  | some d =>
    let lim := effectiveLimit limitParam
    let daily := rows.filter (fun r => decide (r.date = d) && r.changePercent.isSome)
    if daily = [] then .notFound "No data available for the target date"
    else
      match sliceTop (List.insertionSort dgOrd (daily.filter dPctPos)) lim with
      | none => .serverError
      | some g => .ok g.length ""

/-- nepse_data top_views TopLosersView.get. -/
def nepseTopLosersResp (rows : List DailyRow) (limitParam : Option String) : HResp :=
  match latestDailyDate rows with
  | none => .notFound "No stock data available"
  | some d =>
    let lim := effectiveLimit limitParam
    let daily := rows.filter (fun r => decide (r.date = d) && r.changePercent.isSome)
    if daily = [] then .notFound "No data available for the target date"
    else
      match sliceTop (List.insertionSort dlOrd (daily.filter dPctNeg)) lim with
      | none => .serverError
      | some g => .ok g.length ""

/-- nepse_data views.search_stocks input validation: a stripped query
shorter than 2 characters is a 400; the search itself always
succeeds. -/
def searchStocksResp (q : String) (resultCount : ℕ) : HResp :=
  if (stripStr q).length < 2 then .badRequest "Search query must be at least 2 characters"
  else .ok resultCount ""

/-- The gainers/losers payload of the unofficial client. -/
structure PriceData where
  gainers : List ORec
  losers : List ORec
deriving DecidableEq

/-- The fixed dataset of _get_emergency_data. -/
def emergencyData : PriceData :=
  { gainers :=
      [ { symbol := "NICA", securityName := "NIC ASIA Bank", ltp := some 390,
          percentageChange := some (5 / 2), previousClose := some 380,
          pointChange := some 10, isGainer := true }
      , { symbol := "NBL", securityName := "Nepal Bank Limited", ltp := some 220,
          percentageChange := some (9 / 5), previousClose := some 216,
          pointChange := some 4, isGainer := true }
      , { symbol := "NTC", securityName := "Nepal Telecom", ltp := some 680,
          percentageChange := some (1 / 2), previousClose := some 676,
          pointChange := some 4, isGainer := true } ]
    losers :=
      [ { symbol := "SHL", securityName := "Soaltee Hotel Limited", ltp := some 310,
          percentageChange := some (-3 / 2), previousClose := some 315,
          pointChange := some (-5), isGainer := false }
      , { symbol := "CHCL", securityName := "Chilime Hydropower", ltp := some 420,
          percentageChange := some (-4 / 5), previousClose := some 423,
          pointChange := some (-3), isGainer := false } ] }

/-- The attempt loop of get_todays_price_data: each attempt either
raises (none) or yields raw gainer and loser lists, whose formatted
records accumulate into the shared result dict; the loop returns as
soon as the accumulated result is nonempty, and falls back to the
emergency dataset once the attempt budget is spent with nothing
gathered. -/
def runAttempts (attempts : ℕ → Option (List Raw × List Raw)) :
    ℕ → ℕ → PriceData → PriceData
  | 0, _, acc =>
    if acc.gainers = [] ∧ acc.losers = [] then emergencyData else acc
  | n + 1, i, acc =>
    match attempts i with
    | none => runAttempts attempts n (i + 1) acc
    | some (g, l) =>
      let acc' : PriceData :=
        { gainers := acc.gainers ++ g.filterMap (fun it => formatStockDataUnofficial it true)
          losers := acc.losers ++ l.filterMap (fun it => formatStockDataUnofficial it false) }
      if acc'.gainers ≠ [] ∨ acc'.losers ≠ [] then acc'
      else runAttempts attempts n (i + 1) acc'

/-- UnofficialNepseClientFinal.get_todays_price_data: an uninitialised
client returns the empty result at once; otherwise three attempts run
and an all-failure ends in the emergency dataset, not in any failure
value. -/
def getTodaysPriceData (clientInit : Bool) (attempts : ℕ → Option (List Raw × List Raw)) :
    PriceData :=
  if clientInit then runAttempts attempts 3 0 ⟨[], []⟩ else ⟨[], []⟩

/-- One record scraped by nepse_data.scrapers (the Merolagani table row
or a demo row); every field is populated by the scraper. -/
structure ScrapedRec where
  symbol : String
  ltp : ℚ
  change : ℚ
  percentChange : ℚ
  openP : ℚ
  highP : ℚ
  lowP : ℚ
  volume : ℤ
  date : ℕ
deriving DecidableEq

/-- NepseScraper.scrape_with_retry: return the first attempt yielding
more than 10 records; after the budget, fall back to the demo
generator when use_demo_on_fail is set, else return an empty list.
No failure value exists in the signature. -/
def scrapeWithRetry (attempts : ℕ → Option (List ScrapedRec)) :
    ℕ → ℕ → Bool → List ScrapedRec → List ScrapedRec
  | 0, _, useDemoOnFail, demo => if useDemoOnFail then demo else []
  | n + 1, i, useDemoOnFail, demo =>
    match attempts i with
    | some data =>
      if 10 < data.length then data
      else scrapeWithRetry attempts n (i + 1) useDemoOnFail demo
    | none => scrapeWithRetry attempts n (i + 1) useDemoOnFail demo

/-- A nepse_data.models.Company row. -/
structure NCompany where
  symbol : String
  name : String
  sector : String
deriving DecidableEq

/-- The persistent store of the nepse_data app. -/
structure NState where
  companies : List NCompany
  rows : List DailyRow
deriving DecidableEq

/-- Company.objects.get_or_create(symbol=..., defaults={name: symbol,
sector: 'Unknown'}): no update on an existing row. -/
def getOrCreateNCompany (sym : String) : List NCompany → List NCompany
  | [] => [⟨sym, sym, "Unknown"⟩]
  | c :: cs => if c.symbol = sym then c :: cs else c :: getOrCreateNCompany sym cs

/-- DailyStockData.objects.update_or_create on the (company, date) key:
overwrite the first matching row's values in place, else append. -/
def updateOrCreateDaily (row : DailyRow) : List DailyRow → List DailyRow
  | [] => [row]
  | r :: rs =>
    if r.symbol = row.symbol ∧ r.date = row.date then row :: rs
    else r :: updateOrCreateDaily row rs

/-- The DailyStockData row save_to_database builds: the record's own
date is discarded in favour of today. -/
def mkDailyRow (rec : ScrapedRec) (today : ℕ) : DailyRow :=
  { symbol := rec.symbol
    date := today
    openPrice := some rec.openP
    highPrice := some rec.highP
    lowPrice := some rec.lowP
    closePrice := some rec.ltp
    volume := some rec.volume
    change := some rec.change
    changePercent := some rec.percentChange }

/-- NepseScraper.save_to_database: force today's date onto each record,
get-or-create the company, upsert on (company, today), and count every
successful upsert. -/
def saveToDatabase (today : ℕ) : List ScrapedRec → NState → NState × ℕ
  | [], st => (st, 0)
  | rec :: rest, st =>
    let st' : NState :=
      { companies := getOrCreateNCompany rec.symbol st.companies
        rows := updateOrCreateDaily (mkDailyRow rec today) st.rows }
    match saveToDatabase today rest st' with
    | (st'', n) => (st'', n + 1)

/-- Conversion of one formatted observation back into the PVal-shaped
dict consumed by _save_stock_record. -/
def optPV : Option ℚ → PVal
  | none => .null
  | some q => .num q

/-- The handoff of a formatted stock_item from the unofficial client
into the data processor's save loop. -/
def toSaveItem (r : ORec) : SaveItem :=
  { symbol := r.symbol
    securityName := some r.securityName
    cp := .null
    ltp := optPV r.ltp
    previousClose := optPV r.previousClose
    pointChange := optPV r.pointChange
    percentageChange := optPV r.percentageChange }

/-- Claim C3 counterexample: at exactly the market-close boundary
(15:00:00 on a trading day) the session classifier returns after_hours,
not the regular session the claim promises for an inclusive close
boundary. -/
theorem c3_close_boundary_excluded :
    classifySession 0 15 0 0 = "after_hours" ∧ classifySession 0 15 0 0 ≠ "regular" := by
  decide

/-- Claim C3 (amended): on a trading day the market-open boundary is
inclusive (11:00:00 classifies as regular), but the close boundary is
exclusive: 15:00:00 already classifies as after_hours, the post-close
state, as does one second later; one second before open is pre_market
and one second before close is still regular. -/
theorem c3_session_boundaries (w : ℕ) (h : tradingWeekday w = true) :
    classifySession w 11 0 0 = "regular" ∧
    classifySession w 10 59 59 = "pre_market" ∧
    classifySession w 14 59 59 = "regular" ∧
    classifySession w 15 0 0 = "after_hours" ∧
    classifySession w 15 0 1 = "after_hours" := by
  refine ⟨?_, ?_, ?_, ?_, ?_⟩ <;> simp [classifySession, determineMarketSession, h]

/-- Claim C3 witness: the boundary behaviour evaluated on Monday. -/
theorem c3_session_boundaries_witness :
    tradingWeekday 0 = true ∧
    (classifySession 0 11 0 0 = "regular" ∧
     classifySession 0 10 59 59 = "pre_market" ∧
     classifySession 0 14 59 59 = "regular" ∧
     classifySession 0 15 0 0 = "after_hours" ∧
     classifySession 0 15 0 1 = "after_hours") :=
  ⟨by decide, c3_session_boundaries 0 (by decide)⟩

/-- Claim C5 counterexample: the numeric parsers the claim points at
(the unofficial client's _parse_number and the data processor's
_parse_decimal) do not understand parenthesis-style negatives: both map
the string (12.3) to None, not to -12.3. -/
theorem c5_paren_not_negated :
    parseNumberUnofficial (.str "(12.3)") = none ∧
    parseDecimal (.str "(12.3)") = none ∧
    parseNumberUnofficial (.str "(12.3)") ≠ some (-(123 / 10)) := by
  refine ⟨by decide, by decide, by decide⟩

/-- Claim C5 (amended): all three numeric parsers are total and return
None on unparseable input; thousands separators are stripped by every
parser, percent signs by the unofficial client's and the direct
scraper's parsers but not by _parse_decimal, while currency markers and
parenthesis negatives are handled only by the direct scraper's parser;
and normalizing a record with previous_close = 0 produces a null
percentage change rather than raising or yielding an infinity. -/
theorem c5_parsing_amended :
    parseNumberDirect (.str "(12.3)") = some (-(123 / 10)) ∧
    parseNumberDirect (.str "Rs. 1,234.5%") = some (2469 / 2) ∧
    parseNumberUnofficial (.str "1,234.5%") = some (2469 / 2) ∧
    parseDecimal (.str "1,234.5") = some (2469 / 2) ∧
    parseDecimal (.str "5%") = none ∧
    (∀ (s : String) (lv : ℚ), normalizeSym s ≠ "" →
      (formatStockDataDirect { symbol := s, ltp := .num lv, previousClose := .num 0 }).map
          ORec.percentageChange = some none) := by
  have e1 : parseNumberDirect (.str "(12.3)") =
      some (-(((123 : ℕ) : ℚ) / 10 ^ (1 : ℕ))) := rfl
  have e2 : parseNumberDirect (.str "Rs. 1,234.5%") =
      some (((12345 : ℕ) : ℚ) / 10 ^ (1 : ℕ)) := rfl
  have e3 : parseNumberUnofficial (.str "1,234.5%") =
      some (((12345 : ℕ) : ℚ) / 10 ^ (1 : ℕ)) := rfl
  have e4 : parseDecimal (.str "1,234.5") =
      some (((12345 : ℕ) : ℚ) / 10 ^ (1 : ℕ)) := rfl
  refine ⟨?_, ?_, ?_, ?_, by decide, ?_⟩
  · rw [e1]; norm_num
  · rw [e2]; norm_num
  · rw [e3]; norm_num
  · rw [e4]; norm_num
  · intro s lv hs
    have hs0 : s ≠ "" := by
      intro h
      apply hs
      rw [h]
      rfl
    simp [formatStockDataDirect, firstTruthyStr, List.find?, hs0, hs, probeDirect, sentinelPV,
      parseNumberDirect]

/-- Claim C5 witness: the zero-previous-close branch evaluated on a
concrete record. -/
theorem c5_parsing_witness :
    normalizeSym "aaa" ≠ "" ∧
    (formatStockDataDirect { symbol := "aaa", ltp := .num 5, previousClose := .num 0 }).map
        ORec.percentageChange = some none :=
  ⟨by decide, c5_parsing_amended.2.2.2.2.2 "aaa" 5 (by decide)⟩

/-- Claim C7 counterexample: the limit parameter has no lower clamp:
limit=0 is served with an effective limit of 0 (an empty list even when
a gainer exists), and a negative limit reaches the queryset slice
unclamped, where Django raises; neither is served with an effective
limit of at least 1. -/
theorem c7_no_lower_clamp :
    effectiveLimit (some "0") = 0 ∧
    effectiveLimit (some "-1") = -1 ∧
    nepseTopGainersResp
        [{ symbol := "AAA", date := 1, openPrice := none, highPrice := none,
           lowPrice := none, closePrice := some 100, volume := none,
           change := some 10, changePercent := some 10 }] (some "0") = .ok 0 "" ∧
    nepseTopGainersResp
        [{ symbol := "AAA", date := 1, openPrice := none, highPrice := none,
           lowPrice := none, closePrice := some 100, volume := none,
           change := some 10, changePercent := some 10 }] (some "-1") = .serverError := by
  refine ⟨by decide, by decide, by decide, by decide⟩

/-- Claim C7 (amended): the effective limit is clamped above to 20 and
defaults to 10 when the parameter is absent or unparseable; a parseable
value is passed through min(n, 20) with no lower bound. -/
theorem c7_limit_clamp :
    effectiveLimit none = 10 ∧
    (∀ (s : String) (n : ℤ), pyIntOpt s = some n → effectiveLimit (some s) = min n 20) ∧
    (∀ s : String, pyIntOpt s = none → effectiveLimit (some s) = 10) ∧
    (∀ p : Option String, effectiveLimit p ≤ 20) := by
  refine ⟨rfl, ?_, ?_, ?_⟩
  · intro s n h; simp [effectiveLimit, h]
  · intro s h; simp [effectiveLimit, h]
  · intro p
    match p with
    | none => decide
    | some s =>
      simp only [effectiveLimit]
      match pyIntOpt s with
      | some n => exact min_le_right n 20
      | none => decide

/-- Claim C7 witness: the upper clamp evaluated at limit=25. -/
theorem c7_limit_clamp_witness :
    pyIntOpt "25" = some 25 ∧ effectiveLimit (some "25") = min 25 20 :=
  ⟨by decide, c7_limit_clamp.2.1 "25" 25 (by decide)⟩

/-- Claim C8 counterexample: the nepse_data top-gainers endpoint
answers a 404-style structured error, not a success with empty data,
when no observation exists at all. -/
theorem c8_top_views_404_on_empty :
    nepseTopGainersResp [] none = HResp.notFound "No stock data available" ∧
    (nepseTopGainersResp [] none).isOk = false := by
  refine ⟨by decide, by decide⟩

/-- Claim C8 (amended): the scrapers-app read endpoints (status,
latest, top-gainers, top-losers) always answer a success status, with
empty data and a message when nothing is stored; but the nepse_data
top-gainers and top-losers endpoints answer a 404-style error whenever
their table is empty, and the search endpoint answers a 400 exactly
when the stripped query is shorter than 2 characters. -/
theorem c8_no_data_statuses :
    (∀ (store : List StockRow) (today : ℕ), (scrapersTopGainersResp store today).isOk = true) ∧
    (∀ (store : List StockRow) (today : ℕ), (scrapersTopLosersResp store today).isOk = true) ∧
    (∀ (ms : List (ℕ × Bool)) (today : ℕ), (scrapersMarketStatusResp ms today).isOk = true) ∧
    (∀ (store : List StockRow) (today : ℕ), (scrapersLatestResp store today).isOk = true) ∧
    (∀ p : Option String,
      nepseTopGainersResp [] p = .notFound "No stock data available" ∧
      nepseTopLosersResp [] p = .notFound "No stock data available") ∧
    (∀ (q : String) (n : ℕ),
      (searchStocksResp q n).isOk = false ↔ (stripStr q).length < 2) := by
  refine ⟨?_, ?_, ?_, ?_, ?_, ?_⟩
  · intro store today
    cases h : latestScrapeTime store today <;> simp [scrapersTopGainersResp, h, HResp.isOk]
  · intro store today
    cases h : latestScrapeTime store today <;> simp [scrapersTopLosersResp, h, HResp.isOk]
  · intro ms today
    cases h : ms.find? (fun p => decide (p.1 = today)) <;>
      simp [scrapersMarketStatusResp, h, HResp.isOk]
  · intro store today
    cases h : latestScrapeTime store today with
    | none =>
      cases h' : latestScrapeDate store with
      | none => simp [scrapersLatestResp, h, h', HResp.isOk]
      | some d' =>
        cases h'' : latestScrapeTime store d' <;>
          simp [scrapersLatestResp, h, h', h'', HResp.isOk]
    | some t => simp [scrapersLatestResp, h, HResp.isOk]
  · intro p
    exact ⟨rfl, rfl⟩
  · intro q n
    by_cases h : (stripStr q).length < 2 <;> simp [searchStocksResp, h, HResp.isOk]

/-- Claim C6 counterexample: with the client initialised and every
attempt failing, the fetch returns the fixed synthetic emergency
dataset (3 gainers, 2 losers); no typed failure value carrying a
reason exists in the fetch's result type, and the caller receives a
synthetic result rather than deciding the fallback. -/
theorem c6_fetch_returns_synthetic :
    getTodaysPriceData true (fun _ => some ([], [])) = emergencyData ∧
    emergencyData.gainers.length = 3 ∧ emergencyData.losers.length = 2 :=
  ⟨rfl, rfl, rfl⟩

/-- A retry loop whose every attempt raises or yields at most 10
records always falls through to its fallback branch. -/
theorem scrapeWithRetry_allFail (attempts : ℕ → Option (List ScrapedRec))
    (h : ∀ (j : ℕ) (data : List ScrapedRec), attempts j = some data → data.length ≤ 10) :
    ∀ (n i : ℕ) (b : Bool) (demo : List ScrapedRec),
      scrapeWithRetry attempts n i b demo = if b then demo else [] := by
  intro n
  induction n with
  | zero => intro i b demo; rfl
  | succ n ih =>
    intro i b demo
    simp only [scrapeWithRetry]
    cases hi : attempts i with
    | none => exact ih (i + 1) b demo
    | some data =>
      simp only [Nat.not_lt.2 (h _ _ hi), if_false]
      exact ih (i + 1) b demo

/-- Claim C6 (amended): when every attempt raises or yields an empty
payload, get_todays_price_data itself falls back to the emergency
dataset, and scrape_with_retry — whose every attempt raises or yields
at most 10 records — itself falls back to the demo dataset when
use_demo_on_fail is set and to an empty list otherwise; in no case is
a failure value returned or the fallback decision left to the
caller. -/
theorem c6_fallback_is_internal :
    (∀ attempts : ℕ → Option (List Raw × List Raw),
      (∀ i, attempts i = none ∨ attempts i = some ([], [])) →
      getTodaysPriceData true attempts = emergencyData) ∧
    (∀ (attempts : ℕ → Option (List ScrapedRec)) (demo : List ScrapedRec) (i : ℕ),
      (∀ (j : ℕ) (data : List ScrapedRec), attempts j = some data → data.length ≤ 10) →
      scrapeWithRetry attempts 3 i true demo = demo ∧
      scrapeWithRetry attempts 3 i false demo = []) := by
  constructor
  · intro attempts h
    rcases h 0 with h0 | h0 <;> rcases h 1 with h1 | h1 <;> rcases h 2 with h2 | h2 <;>
      simp [getTodaysPriceData, runAttempts, h0, h1, h2]
  · intro attempts demo i h
    exact ⟨scrapeWithRetry_allFail attempts h 3 i true demo,
           scrapeWithRetry_allFail attempts h 3 i false demo⟩

/-- Claim C6 witness: both fallbacks evaluated on the always-raising
attempt oracle. -/
theorem c6_fallback_witness :
    getTodaysPriceData true (fun _ => none) = emergencyData ∧
    scrapeWithRetry (fun _ => none) 3 0 true
        [{ symbol := "X", ltp := 1, change := 1, percentChange := 1, openP := 1,
           highP := 1, lowP := 1, volume := 1, date := 1 }] =
      [{ symbol := "X", ltp := 1, change := 1, percentChange := 1, openP := 1,
         highP := 1, lowP := 1, volume := 1, date := 1 }] :=
  ⟨c6_fallback_is_internal.1 (fun _ => none) (fun _ => Or.inl rfl),
   (c6_fallback_is_internal.2 (fun _ => none) _ 0 (fun _ _ h => by cases h)).1⟩

/-- Claim C4 counterexample: the unofficial client's normalizer never
derives the percentage change: a record carrying a last price and a
nonzero previous close but no direct percentage field is normalised
with a null percentage_change. -/
theorem c4_no_derivation_unofficial :
    formatStockDataUnofficial { symbol := "AAA", ltp := .num 110, previousClose := .num 100 }
        true =
      some { symbol := "AAA", securityName := "AAA", ltp := some 110,
             percentageChange := none, previousClose := some 100, pointChange := none,
             isGainer := true } := rfl

/-- Claim C4 (amended): the derivation rule lives in the direct NEPSE
scraper's normalizer, not the unofficial client's: there, a record
with a parseable last price, a positive previous close and no direct
percentage field gets percentage_change = round2((last - prev) / prev
* 100) and point change round2(last - prev); the unofficial client's
normalizer takes the percentage change only from the direct candidate
fields and never derives it. -/
theorem c4_derivation_direct (s : String) (lv pv : ℚ) (hs : normalizeSym s ≠ "")
    (hpv : 0 < pv) :
    formatStockDataDirect { symbol := s, ltp := .num lv, previousClose := .num pv } =
      some { symbol := normalizeSym s, securityName := normalizeSym s, ltp := some lv,
             percentageChange := some (round2 ((lv - pv) / pv * 100)),
             previousClose := some pv,
             pointChange := some (round2 (lv - pv)),
             isGainer := decide (0 < round2 ((lv - pv) / pv * 100)) } ∧
    (∀ (i : Raw) (g : Bool) (r : ORec), formatStockDataUnofficial i g = some r →
      r.percentageChange = parseNumberUnofficial
        (pvOr i.percentageChange (pvOr i.changePercent (pvOr i.percentChange i.change)))) := by
  have hs0 : s ≠ "" := by
    intro h
    apply hs
    rw [h]
    rfl
  constructor
  · simp [formatStockDataDirect, firstTruthyStr, List.find?, hs0, hs, probeDirect, sentinelPV,
      parseNumberDirect, hpv, hpv.ne', osTruthy]
  · intro i g r h
    by_cases hsym : normalizeSym i.symbol = ""
    · simp [formatStockDataUnofficial, hsym] at h
    · simp only [formatStockDataUnofficial, hsym, if_false] at h
      injection h with h
      rw [← h]

/-- Claim C4 witness: the derivation evaluated on last = 110,
previous close = 100. -/
theorem c4_derivation_witness :
    normalizeSym "aaa" ≠ "" ∧ (0 : ℚ) < 100 ∧
    (formatStockDataDirect { symbol := "aaa", ltp := .num 110, previousClose := .num 100 } =
      some { symbol := normalizeSym "aaa", securityName := normalizeSym "aaa", ltp := some 110,
             percentageChange := some (round2 ((110 - 100) / 100 * 100)),
             previousClose := some 100,
             pointChange := some (round2 (110 - 100)),
             isGainer := decide (0 < round2 ((110 - 100) / 100 * 100)) } ∧
    (∀ (i : Raw) (g : Bool) (r : ORec), formatStockDataUnofficial i g = some r →
      r.percentageChange = parseNumberUnofficial
        (pvOr i.percentageChange (pvOr i.changePercent (pvOr i.percentChange i.change))))) :=
  ⟨by decide, by norm_num, c4_derivation_direct "aaa" 110 100 (by decide) (by norm_num)⟩

/-- Claim C9 counterexample: a raw record with a resolvable symbol but
no resolvable last price is not dropped: the unofficial client's
normalizer emits it with a null last price and the save path persists
a row for it. -/
theorem c9_null_price_persisted :
    formatStockDataUnofficial { symbol := "BBB" } true =
      some { symbol := "BBB", securityName := "BBB", ltp := none, percentageChange := none,
             previousClose := none, pointChange := none, isGainer := true } ∧
    saveStockRecord
        (toSaveItem { symbol := "BBB", securityName := "BBB", ltp := none,
                      percentageChange := none, previousClose := none, pointChange := none,
                      isGainer := true }) "live" 5 1 ⟨[], []⟩ =
      (⟨[{ symbol := "BBB", name := "BBB", isActive := true }],
        [{ symbol := "BBB", closePrice := none, lastTradedPrice := none, previousClose := none,
           difference := none, percentageChange := none, scrapeDate := 1, scrapeTime := 5,
           dataSource := "live", isClosingData := false }]⟩, true) :=
  ⟨rfl, rfl⟩

/-- Claim C9 (amended): records whose symbol does not resolve are
dropped by both normalizers and skipped by the save path — for the
direct scraper both when no symbol candidate is truthy and when the
chosen candidate strips to the empty string; the direct scraper's
normalizer additionally drops records with no last-price candidate at
all; but records with a resolvable symbol and an absent or unparseable
last price pass through the unofficial client's normalizer with a null
last price and are persisted. -/
theorem c9_drop_policy :
    (∀ (i : Raw) (g : Bool), normalizeSym i.symbol = "" →
      formatStockDataUnofficial i g = none) ∧
    (∀ i : Raw, firstTruthyStr [i.symbol, i.companyCode, i.code, i.securityId] = none →
      formatStockDataDirect i = none) ∧
    (∀ (i : Raw) (s0 : String),
      firstTruthyStr [i.symbol, i.companyCode, i.code, i.securityId] = some s0 →
      normalizeSym s0 = "" → formatStockDataDirect i = none) ∧
    (∀ i : Raw,
      probeDirect [i.lastTradedPrice, i.ltp, i.closePrice, i.closingPrice, i.price,
        i.lastPrice] = none →
      formatStockDataDirect i = none) ∧
    (∀ (it : SaveItem) (src : String) (t d : ℕ) (st : PState),
      normalizeSym it.symbol = "" → saveStockRecord it src t d st = (st, false)) := by
  refine ⟨?_, ?_, ?_, ?_, ?_⟩
  · intro i g h; simp [formatStockDataUnofficial, h]
  · intro i h; simp [formatStockDataDirect, h]
  · intro i s0 hf hn; simp [formatStockDataDirect, hf, hn]
  · intro i h
    cases hsym : firstTruthyStr [i.symbol, i.companyCode, i.code, i.securityId] with
    | none => simp [formatStockDataDirect, hsym]
    | some s0 =>
      by_cases hn : normalizeSym s0 = "" <;> simp [formatStockDataDirect, hsym, hn, h]
  · intro it src t d st h; simp [saveStockRecord, h]

/-- Claim C9 witness: the drop rules evaluated on concrete records. -/
theorem c9_drop_policy_witness :
    normalizeSym "  " = "" ∧
    formatStockDataUnofficial { symbol := "  " } true = none ∧
    formatStockDataDirect { securityName := some "n" } = none ∧
    formatStockDataDirect { symbol := " ", ltp := .num 5 } = none ∧
    saveStockRecord { symbol := "  " } "live" 5 1 ⟨[], []⟩ = (⟨[], []⟩, false) :=
  ⟨by decide, c9_drop_policy.1 { symbol := "  " } true (by decide),
   c9_drop_policy.2.1 { securityName := some "n" } (by decide),
   c9_drop_policy.2.2.1 { symbol := " ", ltp := .num 5 } " " (by decide) (by decide),
   c9_drop_policy.2.2.2.2 { symbol := "  " } "live" 5 1 ⟨[], []⟩ (by decide)⟩

/-- Membership in the gainers ranking forces membership in the
snapshot with a strictly positive change. -/
theorem mem_topGainersFor {rows : List StockRow} {r : StockRow}
    (h : r ∈ topGainersFor rows) : r ∈ rows ∧ pctPos r = true := by
  have h1 : r ∈ List.insertionSort gOrd (rows.filter pctPos) :=
    List.take_subset _ _ h
  have h2 : r ∈ rows.filter pctPos := (List.mem_insertionSort gOrd).1 h1
  exact List.mem_filter.1 h2

/-- Membership in the losers ranking forces membership in the snapshot
with a strictly negative change. -/
theorem mem_topLosersFor {rows : List StockRow} {r : StockRow}
    (h : r ∈ topLosersFor rows) : r ∈ rows ∧ pctNeg r = true := by
  have h1 : r ∈ List.insertionSort lOrd (rows.filter pctNeg) :=
    List.take_subset _ _ h
  have h2 : r ∈ rows.filter pctNeg := (List.mem_insertionSort lOrd).1 h1
  exact List.mem_filter.1 h2

/-- Claim C2: over any snapshot whose rows carry pairwise distinct
symbols, the top-gainers list holds only strictly positive percentage
changes sorted non-increasingly, the top-losers list only strictly
negative changes sorted non-decreasingly, no symbol appears in both
lists, and zero-change rows appear in neither. -/
theorem c2_ranking (store : List StockRow) (d t : ℕ)
    (hsym : ∀ a ∈ snapshotRows store d t, ∀ b ∈ snapshotRows store d t,
      a.symbol = b.symbol → a = b) :
    (∀ r ∈ topGainersFor (snapshotRows store d t), pctPos r = true) ∧
    List.Sorted gOrd (topGainersFor (snapshotRows store d t)) ∧
    (∀ r ∈ topLosersFor (snapshotRows store d t), pctNeg r = true) ∧
    List.Sorted lOrd (topLosersFor (snapshotRows store d t)) ∧
    (∀ g ∈ topGainersFor (snapshotRows store d t),
      ∀ l ∈ topLosersFor (snapshotRows store d t), g.symbol ≠ l.symbol) ∧
    (∀ r ∈ snapshotRows store d t, r.percentageChange = some 0 →
      r ∉ topGainersFor (snapshotRows store d t) ∧
      r ∉ topLosersFor (snapshotRows store d t)) := by
  refine ⟨?_, ?_, ?_, ?_, ?_, ?_⟩
  · exact fun r hr => (mem_topGainersFor hr).2
  · exact (List.sorted_insertionSort gOrd _).sublist
      (List.take_sublist _ _)
  · exact fun r hr => (mem_topLosersFor hr).2
  · exact (List.sorted_insertionSort lOrd _).sublist
      (List.take_sublist _ _)
  · intro g hg l hl heq
    obtain ⟨hgmem, hgpos⟩ := mem_topGainersFor hg
    obtain ⟨hlmem, hlneg⟩ := mem_topLosersFor hl
    have : g = l := hsym g hgmem l hlmem heq
    subst this
    cases hq : g.percentageChange with
    | none => simp [pctPos, hq] at hgpos
    | some q =>
      simp only [pctPos, hq, decide_eq_true_eq] at hgpos
      simp only [pctNeg, hq, decide_eq_true_eq] at hlneg
      exact absurd hgpos (not_lt.2 hlneg.le)
  · intro r _ hzero
    constructor
    · intro hmem
      have := (mem_topGainersFor hmem).2
      simp [pctPos, hzero] at this
    · intro hmem
      have := (mem_topLosersFor hmem).2
      simp [pctNeg, hzero] at this

/-- A concrete three-company snapshot store for evaluating the
ranking: one gainer, one loser, one unchanged row on one bucket. -/
def c2Store : List StockRow :=
  [ { symbol := "GAA", closePrice := none, lastTradedPrice := some 110,
      previousClose := some 100, difference := some 10, percentageChange := some 10,
      scrapeDate := 1, scrapeTime := 5, dataSource := "live", isClosingData := false }
  , { symbol := "LBB", closePrice := none, lastTradedPrice := some 90,
      previousClose := some 100, difference := some (-10), percentageChange := some (-10),
      scrapeDate := 1, scrapeTime := 5, dataSource := "live", isClosingData := false }
  , { symbol := "UCC", closePrice := none, lastTradedPrice := some 100,
      previousClose := some 100, difference := some 0, percentageChange := some 0,
      scrapeDate := 1, scrapeTime := 5, dataSource := "live", isClosingData := false } ]

/-- Claim C2 witness: the ranking properties evaluated on the concrete
snapshot. -/
theorem c2_ranking_witness :
    (∀ a ∈ snapshotRows c2Store 1 5, ∀ b ∈ snapshotRows c2Store 1 5,
      a.symbol = b.symbol → a = b) ∧
    ((∀ r ∈ topGainersFor (snapshotRows c2Store 1 5), pctPos r = true) ∧
     List.Sorted gOrd (topGainersFor (snapshotRows c2Store 1 5)) ∧
     (∀ r ∈ topLosersFor (snapshotRows c2Store 1 5), pctNeg r = true) ∧
     List.Sorted lOrd (topLosersFor (snapshotRows c2Store 1 5)) ∧
     (∀ g ∈ topGainersFor (snapshotRows c2Store 1 5),
       ∀ l ∈ topLosersFor (snapshotRows c2Store 1 5), g.symbol ≠ l.symbol) ∧
     (∀ r ∈ snapshotRows c2Store 1 5, r.percentageChange = some 0 →
       r ∉ topGainersFor (snapshotRows c2Store 1 5) ∧
       r ∉ topLosersFor (snapshotRows c2Store 1 5))) :=
  ⟨by decide, c2_ranking c2Store 1 5 (by decide)⟩

/-- The name refresh preserves the company's symbol. -/
theorem updName_symbol (it : SaveItem) (c : Company) : (updName it c).symbol = c.symbol := by
  cases hn : it.securityName with
  | none => simp [updName, hn]
  | some n => by_cases h : n ≠ "" ∧ c.name ≠ n <;> simp [updName, hn, h]

/-- The name refresh is idempotent. -/
theorem updName_idem (it : SaveItem) (c : Company) : updName it (updName it c) = updName it c := by
  cases hn : it.securityName with
  | none => simp [updName, hn]
  | some n =>
    by_cases h : n ≠ "" ∧ c.name ≠ n
    · simp [updName, hn, h]
    · simp [updName, hn, h]

/-- A freshly created company is already name-stable. -/
theorem updName_new (it : SaveItem) (sym : String) :
    updName it ⟨sym, it.securityName.getD sym, true⟩ = ⟨sym, it.securityName.getD sym, true⟩ := by
  cases hn : it.securityName with
  | none => simp [updName, hn]
  | some n => simp [updName, hn]

/-- Upserting the same item twice leaves the company table where the
first upsert put it. -/
theorem upsertCompany_self (it : SaveItem) (sym : String) :
    ∀ cs : List Company, upsertCompany it sym (upsertCompany it sym cs) = upsertCompany it sym cs
  | [] => by simp [upsertCompany, updName_new]
  | c :: cs => by
    by_cases hc : c.symbol = sym
    · simp [upsertCompany, hc, updName_symbol, updName_idem]
    · simp [upsertCompany, hc, upsertCompany_self it sym cs]

/-- Stability of one symbol's entry survives an upsert of a different
symbol. -/
theorem upsertCompany_pres (it₁ : SaveItem) (s₁ : String) (it₂ : SaveItem) (s₂ : String)
    (hne : s₁ ≠ s₂) :
    ∀ cs : List Company, upsertCompany it₁ s₁ cs = cs →
      upsertCompany it₁ s₁ (upsertCompany it₂ s₂ cs) = upsertCompany it₂ s₂ cs
  | [], h => absurd h (by simp [upsertCompany])
  | c :: cs, h => by
    by_cases hc1 : c.symbol = s₁
    · have hc2 : ¬ c.symbol = s₂ := by rw [hc1]; exact hne
      have hhead : updName it₁ c = c := by
        have h' := h
        simp only [upsertCompany, hc1, if_true, List.cons.injEq] at h'
        exact h'.1
      simp [upsertCompany, hc1, hc2, hhead, hne]
    · have htail : upsertCompany it₁ s₁ cs = cs := by
        have h' := h
        simp only [upsertCompany, hc1, if_false, List.cons.injEq] at h'
        exact h'.2
      by_cases hc2 : c.symbol = s₂
      · have : ¬ (updName it₂ c).symbol = s₁ := by rw [updName_symbol]; exact hc1
        simp [upsertCompany, hc1, hc2, this, htail]
      · simp [upsertCompany, hc1, hc2, upsertCompany_pres it₁ s₁ it₂ s₂ hne cs htail]

/-- First reconciliation pass over a fresh bucket: every record with a
nonempty symbol, all symbols pairwise distinct, none colliding with a
stored row, is inserted; the resulting company table is stable for
every processed item and for every untouched symbol. -/
theorem reconcile_fresh (src : String) (t d : ℕ) (items : List SaveItem) :
    ∀ st : PState,
      (items.map (fun it => normalizeSym it.symbol)).Nodup →
      (∀ it ∈ items, normalizeSym it.symbol ≠ "") →
      (∀ it ∈ items, ∀ r ∈ st.rows,
        rowMatches r (normalizeSym it.symbol) d t src = false) →
      ∃ cs₁ : List Company,
        reconcile src t d items st =
          (⟨cs₁, st.rows ++ items.map (fun it => mkRow it (normalizeSym it.symbol) d t src)⟩,
            items.length) ∧
        (∀ it ∈ items, upsertCompany it (normalizeSym it.symbol) cs₁ = cs₁) ∧
        (∀ (j : SaveItem) (s : String),
          s ∉ items.map (fun it => normalizeSym it.symbol) →
          upsertCompany j s st.companies = st.companies →
          upsertCompany j s cs₁ = cs₁) := by
  induction items with
  | nil =>
    intro st _ _ _
    exact ⟨st.companies, by simp [reconcile], by simp, fun j s _ h => h⟩
  | cons it rest ih =>
    intro st h1 h2 h3
    have hs : normalizeSym it.symbol ≠ "" := h2 it (List.mem_cons_self _ _)
    have hany : st.rows.any (fun r => rowMatches r (normalizeSym it.symbol) d t src) = false := by
      rw [List.any_eq_false]
      intro r hr
      simp [h3 it (List.mem_cons_self _ _) r hr]
    have hsave : saveStockRecord it src t d st =
        (⟨upsertCompany it (normalizeSym it.symbol) st.companies,
          st.rows ++ [mkRow it (normalizeSym it.symbol) d t src]⟩, true) := by
      simp [saveStockRecord, hs, hany]
    have h1s : (∀ x ∈ rest, ¬normalizeSym x.symbol = normalizeSym it.symbol) ∧
        (rest.map (fun it => normalizeSym it.symbol)).Nodup := by simpa using h1
    have h1' : (rest.map (fun it => normalizeSym it.symbol)).Nodup := h1s.2
    have hnotin : normalizeSym it.symbol ∉ rest.map (fun it => normalizeSym it.symbol) := by
      intro hc
      obtain ⟨x, hx, hEq⟩ := List.mem_map.1 hc
      exact h1s.1 x hx hEq
    have h2' : ∀ x ∈ rest, normalizeSym x.symbol ≠ "" :=
      fun x hx => h2 x (List.mem_cons_of_mem _ hx)
    have h3' : ∀ x ∈ rest,
        ∀ r ∈ (⟨upsertCompany it (normalizeSym it.symbol) st.companies,
            st.rows ++ [mkRow it (normalizeSym it.symbol) d t src]⟩ : PState).rows,
          rowMatches r (normalizeSym x.symbol) d t src = false := by
      intro x hx r hr
      rcases List.mem_append.1 hr with hr | hr
      · exact h3 x (List.mem_cons_of_mem _ hx) r hr
      · have hreq : r = mkRow it (normalizeSym it.symbol) d t src := by simpa using hr
        subst hreq
        have hnex : normalizeSym x.symbol ≠ normalizeSym it.symbol := by
          intro hEq
          exact hnotin (hEq ▸ List.mem_map_of_mem _ hx)
        simp [rowMatches, mkRow, Ne.symm hnex]
    obtain ⟨cs₁, hrec, hstab, hpres⟩ :=
      ih ⟨upsertCompany it (normalizeSym it.symbol) st.companies,
          st.rows ++ [mkRow it (normalizeSym it.symbol) d t src]⟩ h1' h2' h3'
    refine ⟨cs₁, ?_, ?_, ?_⟩
    · simp only [reconcile, hsave, hrec, if_true, List.map_cons, List.length_cons]
      rw [List.append_assoc, List.singleton_append, Nat.add_comm 1 rest.length]
    · intro x hx
      rcases List.mem_cons.1 hx with rfl | hx
      · exact hpres x (normalizeSym x.symbol) hnotin (upsertCompany_self x _ st.companies)
      · exact hstab x hx
    · intro j s hs' hstable
      have hs1 : s ∉ rest.map (fun it => normalizeSym it.symbol) := by
        intro hc
        exact hs' (by simp [hc])
      have hs2 : s ≠ normalizeSym it.symbol := by
        intro hc
        exact hs' (by simp [hc])
      exact hpres j s hs1 (upsertCompany_pres j s it (normalizeSym it.symbol) hs2
        st.companies hstable)

/-- Second reconciliation pass over an already-processed bucket: every
record's company entry is stable and its row already stored, so the
whole pass is a no-op reporting zero saves. -/
theorem reconcile_stable (src : String) (t d : ℕ) (items : List SaveItem) :
    ∀ st : PState,
      (∀ it ∈ items, upsertCompany it (normalizeSym it.symbol) st.companies = st.companies) →
      (∀ it ∈ items,
        st.rows.any (fun r => rowMatches r (normalizeSym it.symbol) d t src) = true) →
      reconcile src t d items st = (st, 0) := by
  induction items with
  | nil => intro st _ _; rfl
  | cons it rest ih =>
    intro st hcomp hrow
    have hsave : saveStockRecord it src t d st = (st, false) := by
      by_cases hs : normalizeSym it.symbol = ""
      · simp [saveStockRecord, hs]
      · simp [saveStockRecord, hs, hrow it (List.mem_cons_self _ _),
          hcomp it (List.mem_cons_self _ _)]
    have hrest := ih st (fun x hx => hcomp x (List.mem_cons_of_mem _ hx))
      (fun x hx => hrow x (List.mem_cons_of_mem _ hx))
    simp [reconcile, hsave, hrest]

/-- Claim C1: reconciling a batch of records bearing distinct nonempty
normalised symbols against a store holding no row for the
(scrape_date, scrape_time, data_source) bucket saves every record;
reconciling the identical batch again saves none and leaves the store
— its rows neither duplicated nor modified — exactly as it was. -/
theorem c1_reconcile_idempotent (items : List SaveItem) (src : String) (t d : ℕ) (st : PState)
    (h1 : (items.map (fun it => normalizeSym it.symbol)).Nodup)
    (h2 : ∀ it ∈ items, normalizeSym it.symbol ≠ "")
    (h3 : ∀ r ∈ st.rows, ¬(r.scrapeDate = d ∧ r.scrapeTime = t ∧ r.dataSource = src)) :
    (reconcile src t d items st).2 = items.length ∧
    (reconcile src t d items st).1.rows.length = st.rows.length + items.length ∧
    reconcile src t d items (reconcile src t d items st).1 =
      ((reconcile src t d items st).1, 0) := by
  have h3' : ∀ it ∈ items, ∀ r ∈ st.rows,
      rowMatches r (normalizeSym it.symbol) d t src = false := by
    intro x _ r hr
    have hx3 := h3 r hr
    simp only [rowMatches, decide_eq_false_iff_not]
    rintro ⟨-, hd, ht, hsrc⟩
    exact hx3 ⟨hd, ht, hsrc⟩
  obtain ⟨cs₁, hrec, hstab, -⟩ := reconcile_fresh src t d items st h1 h2 h3'
  refine ⟨by rw [hrec], by rw [hrec]; simp, ?_⟩
  rw [hrec]
  apply reconcile_stable
  · exact hstab
  · intro x hx
    rw [List.any_eq_true]
    refine ⟨mkRow x (normalizeSym x.symbol) d t src, ?_, ?_⟩
    · exact List.mem_append_right _ (List.mem_map_of_mem _ hx)
    · simp [rowMatches, mkRow]

/-- A concrete two-record batch for evaluating reconciliation. -/
def c1Items : List SaveItem :=
  [ { symbol := "AAA", securityName := some "Alpha", ltp := .num 110,
      previousClose := .num 100, pointChange := .num 10, percentageChange := .num 10 }
  , { symbol := "BBB", securityName := some "Beta", ltp := .num 90,
      previousClose := .num 100, pointChange := .num (-10), percentageChange := .num (-10) } ]

/-- Claim C1 witness: idempotent reconciliation evaluated on the
two-record batch against an empty store. -/
theorem c1_reconcile_witness :
    ((c1Items.map (fun it => normalizeSym it.symbol)).Nodup) ∧
    (∀ it ∈ c1Items, normalizeSym it.symbol ≠ "") ∧
    (∀ r ∈ (⟨[], []⟩ : PState).rows,
      ¬(r.scrapeDate = 1 ∧ r.scrapeTime = 5 ∧ r.dataSource = "live")) ∧
    ((reconcile "live" 5 1 c1Items ⟨[], []⟩).2 = c1Items.length ∧
     (reconcile "live" 5 1 c1Items ⟨[], []⟩).1.rows.length =
       (⟨[], []⟩ : PState).rows.length + c1Items.length ∧
     reconcile "live" 5 1 c1Items (reconcile "live" 5 1 c1Items ⟨[], []⟩).1 =
       ((reconcile "live" 5 1 c1Items ⟨[], []⟩).1, 0)) :=
  ⟨by decide, by decide, by decide,
   c1_reconcile_idempotent c1Items "live" 5 1 ⟨[], []⟩ (by decide) (by decide) (by decide)⟩

/-- Structure eta for the nepse_data store. -/
theorem nstate_eta (st : NState) : (⟨st.companies, st.rows⟩ : NState) = st := rfl

/-- Upserting the same daily row twice is the same as once. -/
theorem updateOrCreateDaily_self (row : DailyRow) :
    ∀ rs : List DailyRow,
      updateOrCreateDaily row (updateOrCreateDaily row rs) = updateOrCreateDaily row rs
  | [] => by simp [updateOrCreateDaily]
  | r :: rs => by
    by_cases h : r.symbol = row.symbol ∧ r.date = row.date
    · simp [updateOrCreateDaily, h]
    · simp [updateOrCreateDaily, h, updateOrCreateDaily_self row rs]

/-- A daily-row fixpoint means the row is stored. -/
theorem updateOrCreateDaily_mem (row : DailyRow) :
    ∀ rs : List DailyRow, updateOrCreateDaily row rs = rs → row ∈ rs
  | [], h => absurd h (by simp [updateOrCreateDaily])
  | r :: rs, h => by
    by_cases h1 : r.symbol = row.symbol ∧ r.date = row.date
    · have hhead : row = r := by
        have h' := h
        simp [updateOrCreateDaily, h1] at h'
        exact h'
      exact hhead ▸ List.mem_cons_self _ _
    · have htail : updateOrCreateDaily row rs = rs := by
        have h' := h
        simp [updateOrCreateDaily, h1] at h'
        exact h'
      exact List.mem_cons_of_mem _ (updateOrCreateDaily_mem row rs htail)

/-- Every row of an upserted table is the upserted row or an old
row. -/
theorem updateOrCreateDaily_subset (row : DailyRow) :
    ∀ rs : List DailyRow, ∀ x ∈ updateOrCreateDaily row rs, x = row ∨ x ∈ rs
  | [], x, hx => by
    simp [updateOrCreateDaily] at hx
    exact Or.inl hx
  | r :: rs, x, hx => by
    by_cases h1 : r.symbol = row.symbol ∧ r.date = row.date
    · simp only [updateOrCreateDaily, h1, if_true] at hx
      rcases List.mem_cons.1 hx with rfl | hx
      · exact Or.inl rfl
      · exact Or.inr (List.mem_cons_of_mem _ hx)
    · simp only [updateOrCreateDaily, h1, if_false] at hx
      rcases List.mem_cons.1 hx with rfl | hx
      · exact Or.inr (List.mem_cons_self _ _)
      · rcases updateOrCreateDaily_subset row rs x hx with h | h
        · exact Or.inl h
        · exact Or.inr (List.mem_cons_of_mem _ h)

/-- A daily-row fixpoint survives an upsert with a different
(symbol, date) key. -/
theorem updateOrCreateDaily_pres (row row₂ : DailyRow)
    (hne : ¬(row.symbol = row₂.symbol ∧ row.date = row₂.date)) :
    ∀ rs : List DailyRow, updateOrCreateDaily row rs = rs →
      updateOrCreateDaily row (updateOrCreateDaily row₂ rs) = updateOrCreateDaily row₂ rs
  | [], h => absurd h (by simp [updateOrCreateDaily])
  | r :: rs, h => by
    by_cases h1 : r.symbol = row.symbol ∧ r.date = row.date
    · have hhead : row = r := by
        have h' := h
        simp [updateOrCreateDaily, h1] at h'
        exact h'
      have h2 : ¬(r.symbol = row₂.symbol ∧ r.date = row₂.date) := fun hc =>
        hne ⟨h1.1.symm.trans hc.1, h1.2.symm.trans hc.2⟩
      simp [updateOrCreateDaily, h1, h2, ← hhead, hne]
    · have htail : updateOrCreateDaily row rs = rs := by
        have h' := h
        simp [updateOrCreateDaily, h1] at h'
        exact h'
      by_cases h2 : r.symbol = row₂.symbol ∧ r.date = row₂.date
      · have hrow2 : ¬(row₂.symbol = row.symbol ∧ row₂.date = row.date) := fun hc =>
          hne ⟨hc.1.symm, hc.2.symm⟩
        simp [updateOrCreateDaily, h1, h2, hrow2, htail]
      · simp [updateOrCreateDaily, h1, h2, updateOrCreateDaily_pres row row₂ hne rs htail]

/-- Get-or-create is idempotent on the company table. -/
theorem getOrCreateNCompany_self (sym : String) :
    ∀ cs : List NCompany,
      getOrCreateNCompany sym (getOrCreateNCompany sym cs) = getOrCreateNCompany sym cs
  | [] => by simp [getOrCreateNCompany]
  | c :: cs => by
    by_cases h : c.symbol = sym <;>
      simp [getOrCreateNCompany, h, getOrCreateNCompany_self sym cs]

/-- A company-table fixpoint survives a get-or-create of a different
symbol. -/
theorem getOrCreateNCompany_pres (s s₂ : String) (hne : s ≠ s₂) :
    ∀ cs : List NCompany, getOrCreateNCompany s cs = cs →
      getOrCreateNCompany s (getOrCreateNCompany s₂ cs) = getOrCreateNCompany s₂ cs
  | [], h => absurd h (by simp [getOrCreateNCompany])
  | c :: cs, h => by
    by_cases h1 : c.symbol = s
    · have h2 : ¬ c.symbol = s₂ := by rw [h1]; exact hne
      simp [getOrCreateNCompany, h1, h2, hne]
    · have htail : getOrCreateNCompany s cs = cs := by
        have h' := h
        simp [getOrCreateNCompany, h1] at h'
        exact h'
      by_cases h2 : c.symbol = s₂
      · simp [getOrCreateNCompany, h1, h2, htail]
      · simp [getOrCreateNCompany, h1, h2, getOrCreateNCompany_pres s s₂ hne cs htail]

/-- First save pass over records with pairwise distinct symbols: every
record is upserted under today's date, the resulting store is a
fixpoint for each record's upsert, untouched keys stay stable, and
every stored row either carries today's date or was already there. -/
theorem saveDB_fresh (today : ℕ) (data : List ScrapedRec) :
    ∀ st : NState, (data.map ScrapedRec.symbol).Nodup →
      ∃ st₁ : NState,
        saveToDatabase today data st = (st₁, data.length) ∧
        (∀ rec ∈ data,
          updateOrCreateDaily (mkDailyRow rec today) st₁.rows = st₁.rows ∧
          getOrCreateNCompany rec.symbol st₁.companies = st₁.companies) ∧
        (∀ row : DailyRow, (∀ rec ∈ data, ¬(row.symbol = rec.symbol ∧ row.date = today)) →
          updateOrCreateDaily row st.rows = st.rows →
          updateOrCreateDaily row st₁.rows = st₁.rows) ∧
        (∀ s : String, s ∉ data.map ScrapedRec.symbol →
          getOrCreateNCompany s st.companies = st.companies →
          getOrCreateNCompany s st₁.companies = st₁.companies) ∧
        (∀ r ∈ st₁.rows, r.date = today ∨ r ∈ st.rows) := by
  induction data with
  | nil =>
    intro st _
    exact ⟨st, rfl, by simp, fun _ _ h => h, fun _ _ h => h, fun r hr => Or.inr hr⟩
  | cons rec rest ih =>
    intro st h1
    have h1s : (∀ x ∈ rest, ¬x.symbol = rec.symbol) ∧
        (rest.map ScrapedRec.symbol).Nodup := by simpa using h1
    have hnotin : rec.symbol ∉ rest.map ScrapedRec.symbol := by
      intro hc
      obtain ⟨x, hx, hEq⟩ := List.mem_map.1 hc
      exact h1s.1 x hx hEq
    obtain ⟨st₁, hrec, hstab, hpresR, hpresC, hdate⟩ :=
      ih ⟨getOrCreateNCompany rec.symbol st.companies,
          updateOrCreateDaily (mkDailyRow rec today) st.rows⟩ h1s.2
    refine ⟨st₁, ?_, ?_, ?_, ?_, ?_⟩
    · simp [saveToDatabase, hrec]
    · intro x hx
      rcases List.mem_cons.1 hx with rfl | hx
      · constructor
        · apply hpresR (mkDailyRow x today)
          · intro rec' hrec'
            rintro ⟨hsym, -⟩
            exact h1s.1 rec' hrec' (hsym.symm ▸ rfl)
          · exact updateOrCreateDaily_self _ _
        · apply hpresC x.symbol hnotin
          exact getOrCreateNCompany_self _ _
      · exact hstab x hx
    · intro row hfree hstable
      have hfreehead : ¬(row.symbol = (mkDailyRow rec today).symbol ∧
          row.date = (mkDailyRow rec today).date) :=
        hfree rec (List.mem_cons_self _ _)
      apply hpresR row (fun rec' hrec' => hfree rec' (List.mem_cons_of_mem _ hrec'))
      exact updateOrCreateDaily_pres row (mkDailyRow rec today) hfreehead st.rows hstable
    · intro s hs hstable
      have hs1 : s ∉ rest.map ScrapedRec.symbol := fun hc => hs (by simp [hc])
      have hs2 : s ≠ rec.symbol := fun hc => hs (by simp [hc])
      exact hpresC s hs1 (getOrCreateNCompany_pres s rec.symbol hs2 st.companies hstable)
    · intro r hr
      rcases hdate r hr with h | h
      · exact Or.inl h
      · rcases updateOrCreateDaily_subset (mkDailyRow rec today) st.rows r h with h' | h'
        · exact Or.inl (h' ▸ rfl)
        · exact Or.inr h'

/-- Second save pass over an already-saved store: every upsert is a
no-op but every record is still counted. -/
theorem saveDB_stable (today : ℕ) (data : List ScrapedRec) :
    ∀ st : NState,
      (∀ rec ∈ data,
        updateOrCreateDaily (mkDailyRow rec today) st.rows = st.rows ∧
        getOrCreateNCompany rec.symbol st.companies = st.companies) →
      saveToDatabase today data st = (st, data.length) := by
  induction data with
  | nil => intro st _; rfl
  | cons rec rest ih =>
    intro st h
    have h1 := (h rec (List.mem_cons_self _ _)).1
    have h2 := (h rec (List.mem_cons_self _ _)).2
    have hrest := ih st (fun x hx => h x (List.mem_cons_of_mem _ hx))
    simp [saveToDatabase, h1, h2, nstate_eta, hrest]

/-- Claim C10: save_to_database forces today's date onto every upsert
— every stored row either carries today's date or predates the call —
counts every record, re-saving the same distinct-symbol batch the same
day overwrites the rows in place (each record's row is stored and a
repeat call is a store-level no-op) and again reports the full input
length, not zero. -/
theorem c10_save_to_database (data : List ScrapedRec) (today : ℕ) (st : NState)
    (hnd : (data.map ScrapedRec.symbol).Nodup) :
    (saveToDatabase today data st).2 = data.length ∧
    (∀ r ∈ (saveToDatabase today data st).1.rows, r.date = today ∨ r ∈ st.rows) ∧
    (∀ rec ∈ data, mkDailyRow rec today ∈ (saveToDatabase today data st).1.rows) ∧
    saveToDatabase today data (saveToDatabase today data st).1 =
      ((saveToDatabase today data st).1, data.length) := by
  obtain ⟨st₁, hrec, hstab, -, -, hdate⟩ := saveDB_fresh today data st hnd
  refine ⟨by rw [hrec], ?_, ?_, ?_⟩
  · rw [hrec]; exact hdate
  · intro rec hx
    rw [hrec]
    exact updateOrCreateDaily_mem _ _ (hstab rec hx).1
  · rw [hrec]
    exact saveDB_stable today data st₁ hstab

/-- A concrete two-record scrape batch for evaluating the daily
save. -/
def c10Data : List ScrapedRec :=
  [ { symbol := "AAA", ltp := 110, change := 10, percentChange := 10, openP := 100,
      highP := 112, lowP := 99, volume := 1000, date := 7 }
  , { symbol := "BBB", ltp := 90, change := -10, percentChange := -10, openP := 100,
      highP := 101, lowP := 89, volume := 2000, date := 7 } ]

/-- Claim C10 witness: the daily save evaluated on the two-record
batch against an empty store with today = 9 (overriding the records'
own date 7). -/
theorem c10_save_witness :
    ((c10Data.map ScrapedRec.symbol).Nodup) ∧
    ((saveToDatabase 9 c10Data ⟨[], []⟩).2 = c10Data.length ∧
     (∀ r ∈ (saveToDatabase 9 c10Data ⟨[], []⟩).1.rows, r.date = 9 ∨ r ∈ (⟨[], []⟩ : NState).rows) ∧
     (∀ rec ∈ c10Data, mkDailyRow rec 9 ∈ (saveToDatabase 9 c10Data ⟨[], []⟩).1.rows) ∧
     saveToDatabase 9 c10Data (saveToDatabase 9 c10Data ⟨[], []⟩).1 =
       ((saveToDatabase 9 c10Data ⟨[], []⟩).1, c10Data.length)) :=
  ⟨by decide, c10_save_to_database c10Data 9 ⟨[], []⟩ (by decide)⟩

end Nepse
